import Mathlib

/-!
Verification of the numeric coercion validator of `bibliotecas/calc_numbers.py`
(class `Numbers`: `sum_numbers`, `calculate_average`, `_validate_input_list`,
`_validate_integer_list`).

The Python dynamic values reaching the validator are embedded as the inductive
type `PyVal`.  Python floats are IEEE-754 binary64 values; every non-special
double is exactly an integer multiple of a power of two, so finite doubles are
embedded exactly as a mantissa/exponent pair `m * 2 ^ e` (`PyFloat.finite m e`),
with `inf` and `nan` as separate constructors.  `float(...)` applied to a string
is embedded by an exact decimal parse followed by round-to-nearest-even binary64
rounding (`roundDec`), including overflow to infinity and underflow to zero,
mirroring CPython's correctly rounded `float` constructor.  `int(...)` applied
to a float truncates toward zero and raises `OverflowError` on infinities and
`ValueError` on NaN, as in CPython; `int / int` true division is correctly
rounded and raises `OverflowError` when the quotient leaves the double range.

Python exceptions are embedded structurally: the inductive `PyErr` has one
constructor per textually distinct `raise` site / CPython error, carrying the
data interpolated into the corresponding message (operation name, 1-based
position, offending item, type name).  `PyErr.isTypeError` / `isValueError` /
`isOverflowError` give the Python exception class of each constructor.

All definitions are executable; concrete runs are settled by `rfl`/`decide`.
-/

set_option maxRecDepth 100000

namespace CalcNumbers

/-- An IEEE-754 binary64 value as seen by the validator: a finite double
denoting exactly `m * 2 ^ e`, an infinity with a sign, or a NaN. -/
inductive PyFloat where
  | finite (m : ℤ) (e : ℤ)
  | inf (neg : Bool)
  | nan

/-- A JSON-decoded dynamic Python value: the input domain of the validator. -/
inductive PyVal where
  | int (n : ℤ)
  | float (f : PyFloat)
  | str (s : String)
  | none
  | bool (b : Bool)
  | list (l : List PyVal)
  | dict

/-- Structural embedding of the exceptions the library can raise.  Each
constructor corresponds to one `raise` site of `calc_numbers.py` (or to a
CPython-raised error), carrying the data interpolated into its message. -/
inductive PyErr where
  /-- line 25: `TypeError`, input must be a list, got `typeName`. -/
  | typeError (op : String) (typeName : String)
  /-- line 27: `ValueError`, the list must not be `None`. -/
  | valueErrorNone (op : String)
  /-- lines 9 and 29: `ValueError`, the list must not be empty. -/
  | valueErrorEmpty (op : String)
  /-- line 46: `ValueError`, element at 1-based `pos` must not be `None`. -/
  | valueErrorElemNone (op : String) (pos : ℕ)
  /-- line 53: `ValueError`, conversion of the element at `pos` would lose
  information. -/
  | valueErrorElemLossy (op : String) (pos : ℕ) (item : PyVal)
  /-- line 56: `ValueError`, element at `pos` is not a valid integer and
  cannot be converted. -/
  | valueErrorElemNotConvertible (op : String) (pos : ℕ) (item : PyVal)
  /-- line 58: `ValueError`, element at `pos` is not a valid integer, naming
  the type found. -/
  | valueErrorElemBadType (op : String) (pos : ℕ) (item : PyVal) (typeName : String)
  /-- CPython: `ValueError` raised by `float(str)` on an unparseable string. -/
  | valueErrorFloatParse (item : PyVal)
  /-- CPython: `ValueError` raised by `int(float)` on NaN. -/
  | valueErrorIntOfNan
  /-- CPython: `OverflowError` raised by `int(float)` on an infinity. -/
  | overflowErrorIntOfInf
  /-- CPython: `OverflowError` ("integer division result too large for a
  float") raised by `int / int` true division when the correctly rounded
  quotient falls outside the binary64 range. -/
  | overflowErrorIntDiv

/-- Python exception class of an embedded error: `TypeError`. -/
def PyErr.isTypeError : PyErr → Bool
  | .typeError _ _ => true
  | _ => false

/-- Python exception class of an embedded error: `ValueError`. -/
def PyErr.isValueError : PyErr → Bool
  | .valueErrorNone _ => true
  | .valueErrorEmpty _ => true
  | .valueErrorElemNone _ _ => true
  | .valueErrorElemLossy _ _ _ => true
  | .valueErrorElemNotConvertible _ _ _ => true
  | .valueErrorElemBadType _ _ _ _ => true
  | .valueErrorFloatParse _ => true
  | .valueErrorIntOfNan => true
  | _ => false

/-- Python exception class of an embedded error: `OverflowError`. -/
def PyErr.isOverflowError : PyErr → Bool
  | .overflowErrorIntOfInf => true
  | .overflowErrorIntDiv => true
  | _ => false

/-- The "NullInput" failure kind: the `ValueError` of line 27 saying the input
list must not be `None`. -/
def PyErr.isNullInput : PyErr → Bool
  | .valueErrorNone _ => true
  | _ => false

/-- The "information loss" failure: the `ValueError` raised at line 53. -/
def PyErr.isLossy : PyErr → Bool
  | .valueErrorElemLossy _ _ _ => true
  | _ => false

/-- The 1-based element position named in an error message, when the message
names one. -/
def PyErr.position : PyErr → Option ℕ
  | .valueErrorElemNone _ p => some p
  | .valueErrorElemLossy _ p _ => some p
  | .valueErrorElemNotConvertible _ p _ => some p
  | .valueErrorElemBadType _ p _ _ => some p
  | _ => Option.none

/-- Rewrites the 1-based position carried by a positional element error;
identity on errors that carry no position. -/
def PyErr.setPos : PyErr → ℕ → PyErr
  | .valueErrorElemNone op _, p => .valueErrorElemNone op p
  | .valueErrorElemLossy op _ item, p => .valueErrorElemLossy op p item
  | .valueErrorElemNotConvertible op _ item, p => .valueErrorElemNotConvertible op p item
  | .valueErrorElemBadType op _ item tn, p => .valueErrorElemBadType op p item tn
  | e, _ => e

/-- Python's `type(x).__name__` for the embedded values. -/
def PyVal.pyTypeName : PyVal → String
  | .int _ => "int"
  | .float _ => "float"
  | .str _ => "str"
  | .none => "NoneType"
  | .bool _ => "bool"
  | .list _ => "list"
  | .dict => "dict"

/-- Python's `x is None`. -/
def PyVal.isNoneB : PyVal → Bool
  | .none => true
  | _ => false

/-- Python's `isinstance(x, list)`. -/
def PyVal.isList : PyVal → Bool
  | .list _ => true
  | _ => false

/-- Python's `isinstance(x, int)`.  In Python, `bool` is a subclass of `int`,
so booleans satisfy this test. -/
def PyVal.isinstInt : PyVal → Bool
  | .int _ => true
  | .bool _ => true
  | _ => false

/-- Python's `isinstance(x, (float, str))`. -/
def PyVal.isinstFloatOrStr : PyVal → Bool
  | .float _ => true
  | .str _ => true
  | _ => false

/-- The integer value of a Python `int` instance (`True` is `1`, `False` is
`0`); `0` on other constructors (never used there). -/
def PyVal.intVal : PyVal → ℤ
  | .int n => n
  | .bool b => if b then 1 else 0
  | _ => 0

/-- The underlying element list of a Python list; `[]` on other constructors
(never used there). -/
def PyVal.toList : PyVal → List PyVal
  | .list l => l
  | _ => []

/-! ### Binary64 rounding

CPython's `float(str)` returns the correctly rounded (round-to-nearest,
ties-to-even) binary64 value of the decimal literal, with overflow to
infinity and underflow to zero, and CPython's `int / int` true division is
also correctly rounded.  The functions below implement that rounding with
pure `Nat`/`Int` arithmetic (fuel-based logarithms keep every definition
structurally recursive and kernel-evaluable). -/

/-- Fuel-based `Nat.log2`: `natLog2F fuel n` is `⌊log₂ n⌋` for `1 ≤ n` with
enough fuel (one unit per bit). -/
def natLog2F : ℕ → ℕ → ℕ
  | 0, _ => 0
  | fuel + 1, n => if n ≤ 1 then 0 else natLog2F fuel (n / 2) + 1

/-- Fuel-based decimal digit count of a natural number (`0` for `0`). -/
def decDigitsF : ℕ → ℕ → ℕ
  | 0, _ => 0
  | fuel + 1, n => if n = 0 then 0 else decDigitsF fuel (n / 10) + 1

/-- Canonical form for a finite double `m * 2 ^ e`: integral values are
written with exponent `0`, fractional ones with an odd mantissa and a
negative exponent.  Purely a choice of representative — the denoted value
is unchanged. -/
def normFin : ℕ → ℤ → ℤ → PyFloat
  | 0, m, e => .finite m e
  | fuel + 1, m, e =>
    if m = 0 then .finite 0 0
    else if 0 < e then normFin fuel (m * 2) (e - 1)
    else if e < 0 then
      if m % 2 = 0 then normFin fuel (m / 2) (e + 1) else .finite m e
    else .finite m e

/-- `⌊log₂ (n / d)⌋` for positive naturals `n`, `d`, computed by comparing
bit lengths and one corrective comparison. -/
def floorLog2Rat (n d : ℕ) : ℤ :=
  let a := natLog2F 1000000 n
  let b := natLog2F 1000000 d
  if b ≤ a then
    if d * 2 ^ (a - b) ≤ n then ((a - b : ℕ) : ℤ) else ((a - b : ℕ) : ℤ) - 1
  else
    if d ≤ n * 2 ^ (b - a) then -((b - a : ℕ) : ℤ) else -((b - a : ℕ) : ℤ) - 1

/-- Rounds the positive rational `n / d` to the nearest binary64 value
(ties to even), returning `m * 2 ^ s` in canonical form, `+inf` on overflow
and `0.0` on underflow.  Subnormals are handled by clamping the exponent at
`-1022`. -/
def roundPosRat (n d : ℕ) : PyFloat :=
  let e : ℤ := floorLog2Rat n d
  let e2 : ℤ := max e (-1022)
  let s : ℤ := e2 - 52
  let bigN : ℕ := n * 2 ^ (-s).toNat
  let bigD : ℕ := d * 2 ^ s.toNat
  let fl : ℕ := bigN / bigD
  let r2 : ℕ := 2 * (bigN % bigD)
  let m : ℕ :=
    if r2 < bigD then fl
    else if bigD < r2 then fl + 1
    else if fl % 2 = 0 then fl else fl + 1
  if m = 0 then .finite 0 0
  else if 1024 ≤ (natLog2F 1000000 m : ℤ) + s then .inf false
  else normFin 3000 (m : ℤ) s

/-- Rounds the rational `num / den` (`den` positive) to the nearest binary64
value, ties to even.  This is the value CPython produces for `int / int`
true division. -/
def roundRat (num : ℤ) (den : ℕ) : PyFloat :=
  if num = 0 ∨ den = 0 then .finite 0 0
  else if num < 0 then
    match roundPosRat num.natAbs den with
    | .finite m e => .finite (-m) e
    | .inf _ => .inf true
    | .nan => .nan
  else roundPosRat num.natAbs den

/-- CPython's `int / int` true division: the correctly rounded binary64
quotient, raising `OverflowError` ("integer division result too large for
a float") when the rounded quotient overflows the double range — CPython
raises exactly when rounding would produce an infinity (verified at the
boundary: `(2 ^ 1024 - 2 ^ 971) / 1` is the largest finite double while
the tie `(2 ^ 1024 - 2 ^ 970) / 1` already raises). -/
def pyIntTrueDiv (num : ℤ) (den : ℕ) : Except PyErr PyFloat :=
  match roundRat num den with
  | .finite m e => .ok (.finite m e)
  | .inf _ => .error .overflowErrorIntDiv
  | .nan => .ok .nan

/-- The binary64 value of the decimal literal `m * 10 ^ p`, as produced by
CPython's correctly rounded `float(str)`.  Magnitudes beyond every double
(more than 400 decimal orders) are clamped directly to infinity or zero. -/
def roundDec (m : ℤ) (p : ℤ) : PyFloat :=
  if m = 0 then .finite 0 0
  else
    let dg : ℤ := (decDigitsF 1000000 m.natAbs : ℤ)
    if 400 < dg + p then .inf (decide (m < 0))
    else if dg + p < -400 then .finite 0 0
    else if 0 ≤ p then roundRat (m * ((10 ^ p.toNat : ℕ) : ℤ)) 1
    else roundRat m (10 ^ (-p).toNat)

/-! ### Parsing of `float(str)` -/

/-- The whitespace characters stripped by CPython's `float(str)`. -/
def isPySpace (c : Char) : Bool :=
  c = ' ' || c = '\t' || c = '\n' || c = '\r' || c = '\x0b' || c = '\x0c'

/-- Consumes an optional leading sign, returning whether it was `-`. -/
def stripSign : List Char → Bool × List Char
  | '-' :: rest => (true, rest)
  | '+' :: rest => (false, rest)
  | cs => (false, cs)

/-- The natural number denoted by a list of decimal digit characters. -/
def natOfDigits (ds : List Char) : ℕ :=
  ds.foldl (fun a c => 10 * a + (c.toNat - '0'.toNat)) 0

/-- Parses the decimal-literal body accepted by CPython's `float`:
`digits [. digits] [(e|E) [sign] digits]` with at least one digit in the
mantissa.  Returns the exact value as `(mantissa, decimal exponent)`. -/
def parseDecimal (cs : List Char) : Option (ℕ × ℤ) :=
  let d1 := cs.takeWhile Char.isDigit
  let r1 := cs.dropWhile Char.isDigit
  let fr : List Char × List Char :=
    match r1 with
    | '.' :: rest => (rest.takeWhile Char.isDigit, rest.dropWhile Char.isDigit)
    | _ => ([], r1)
  let d2 := fr.1
  let r2 := fr.2
  if d1.isEmpty && d2.isEmpty then Option.none
  else
    let mant : ℕ := natOfDigits (d1 ++ d2)
    let fracLen : ℤ := (d2.length : ℤ)
    match r2 with
    | [] => some (mant, -fracLen)
    | c :: rest =>
      if c = 'e' || c = 'E' then
        let sd := stripSign rest
        let ed := sd.2.takeWhile Char.isDigit
        let rest2 := sd.2.dropWhile Char.isDigit
        if ed.isEmpty || !rest2.isEmpty then Option.none
        else
          let ex : ℤ := if sd.1 then -(natOfDigits ed : ℤ) else (natOfDigits ed : ℤ)
          some (mant, ex - fracLen)
      else Option.none

/-- CPython's `float(str)`: strips ASCII whitespace, handles an optional
sign, accepts `inf` / `infinity` / `nan` case-insensitively, otherwise
parses a decimal literal and rounds it to binary64.  `Option.none` stands
for the `ValueError` CPython raises on an unparseable string. -/
def pyFloatOfString (s : String) : Option PyFloat :=
  let cs := ((s.toList.dropWhile isPySpace).reverse.dropWhile isPySpace).reverse
  let sb := stripSign cs
  let neg := sb.1
  let low := sb.2.map Char.toLower
  if low = "inf".toList || low = "infinity".toList then some (.inf neg)
  else if low = "nan".toList then some .nan
  else
    match parseDecimal sb.2 with
    | Option.none => Option.none
    | some mp => some (roundDec (if neg then -(mp.1 : ℤ) else (mp.1 : ℤ)) mp.2)

/-- Python's `float(item)` for the two element types the validator feeds it:
identity on floats, string parsing on strings. -/
def pyFloatOf : PyVal → Option PyFloat
  | .float f => some f
  | .str s => pyFloatOfString s
  | _ => Option.none

/-- Python's `int(f)` on a float: truncation toward zero on finite values,
`OverflowError` on infinities, `ValueError` on NaN. -/
def finTrunc (m e : ℤ) : ℤ :=
  if 0 ≤ e then m * ((2 ^ e.toNat : ℕ) : ℤ) else Int.tdiv m ((2 ^ (-e).toNat : ℕ) : ℤ)

/-- Python's exact `int == float` comparison between an integer `n` and the
finite double `m * 2 ^ e`. -/
def intEqFin (n m e : ℤ) : Bool :=
  if 0 ≤ e then n == m * ((2 ^ e.toNat : ℕ) : ℤ) else n * ((2 ^ (-e).toNat : ℕ) : ℤ) == m

/-! ### The validator (`Numbers._validate_input_list`,
`Numbers._validate_integer_list`) and the two operations. -/

/-- `Numbers._validate_input_list` (lines 23-32): rejects non-lists with a
`TypeError` naming the runtime type, keeps the (unreachable) `data is None`
check of line 26, rejects an empty list when the operation is `"soma"`, and
short-circuits an empty list to `[]` when the operation is `"média"`. -/
def validate_input_list (data : PyVal) (operation_name : String) :
    Except PyErr (List PyVal) :=
  if !data.isList then .error (.typeError operation_name data.pyTypeName)
  else if data.isNoneB then .error (.valueErrorNone operation_name)
  else if data.toList.isEmpty && (operation_name == "soma") then
    .error (.valueErrorEmpty operation_name)
  else if data.toList.isEmpty && (operation_name == "média") then .ok []
  else .ok data.toList

/-- The body of the `try` block at lines 50-54 for a float-or-string `item`:
`integer_item = int(float(item))`, then the exact round-trip equality check
`integer_item != float(item)`, raising the information-loss `ValueError` of
line 53 when the check fails.  `float` and `int` themselves can raise
(unparseable string → `ValueError`; infinity → `OverflowError`;
NaN → `ValueError`). -/
def coerceAttempt (op : String) (pos : ℕ) (item : PyVal) : Except PyErr ℤ :=
  match pyFloatOf item with
  | Option.none => .error (.valueErrorFloatParse item)
  | some (.inf _) => .error .overflowErrorIntOfInf
  | some .nan => .error .valueErrorIntOfNan
  | some (.finite m e) =>
    let integer_item : ℤ := finTrunc m e
    if intEqFin integer_item m e then .ok integer_item
    else .error (.valueErrorElemLossy op pos item)

/-- One iteration of the element loop at lines 44-58, for the element `item`
at 1-based position `pos`: `None` elements are rejected; `int` instances
(which in Python include booleans) are accepted as-is; floats and strings go
through `coerceAttempt`, whose `ValueError`s — including the line 53
information-loss error — are caught by the `except ValueError` of line 55
and replaced by the line 56 "cannot be converted" error, while its
`OverflowError` propagates uncaught; every other type is rejected with the
line 58 error naming the type found. -/
def coerceElem (op : String) (pos : ℕ) (item : PyVal) : Except PyErr ℤ :=
  if item.isNoneB then .error (.valueErrorElemNone op pos)
  else if item.isinstInt then .ok item.intVal
  else if item.isinstFloatOrStr then
    match coerceAttempt op pos item with
    | .ok n => .ok n
    | .error e =>
      if e.isValueError then .error (.valueErrorElemNotConvertible op pos item)
      else .error e
  else .error (.valueErrorElemBadType op pos item item.pyTypeName)

/-- The `for index, item in enumerate(validated_list)` loop of lines 43-59:
coerces the elements in order with fail-fast error propagation, `idx` being
the 0-based index of the first element of the remaining list. -/
def coerceList (op : String) : List PyVal → ℕ → Except PyErr (List ℤ)
  | [], _ => .ok []
  | item :: rest, idx =>
    match coerceElem op (idx + 1) item with
    | .error e => .error e
    | .ok n =>
      match coerceList op rest (idx + 1) with
      | .error e => .error e
      | .ok ns => .ok (n :: ns)

/-- `Numbers._validate_integer_list` (lines 34-59): structure validation
followed by the element coercion loop, with the empty-list short-circuit for
`"média"` at lines 40-41. -/
def validate_integer_list (data : PyVal) (operation_name : String) :
    Except PyErr (List ℤ) :=
  match validate_input_list data operation_name with
  | .error e => .error e
  | .ok validated_list =>
    if validated_list.isEmpty && (operation_name == "média") then .ok []
    else coerceList operation_name validated_list 0

/-- `Numbers.sum_numbers` (lines 5-12): validates with operation `"soma"`,
re-raises validation errors unchanged, rejects an empty validated list, and
returns the exact integer sum (Python integers are arbitrary precision). -/
def sum_numbers (numeros : PyVal) : Except PyErr ℤ :=
  match validate_integer_list numeros "soma" with
  | .error e => .error e
  | .ok validated_list =>
    if validated_list.isEmpty then .error (.valueErrorEmpty "soma")
    else .ok validated_list.sum

/-- `Numbers.calculate_average` (lines 14-21): validates with operation
`"média"`, re-raises validation errors unchanged, returns the `None`
sentinel on an empty validated list, and otherwise the binary64 value of
`sum / len` via CPython's `int / int` true division (`pyIntTrueDiv`),
whose `OverflowError` — not a `TypeError` or `ValueError` — escapes the
`except` of line 20 uncaught. -/
def calculate_average (numeros : PyVal) : Except PyErr (Option PyFloat) :=
  match validate_integer_list numeros "média" with
  | .error e => .error e
  | .ok validated_list =>
    if validated_list.isEmpty then .ok Option.none
    else
      match pyIntTrueDiv validated_list.sum validated_list.length with
      | .error e => .error e
      | .ok f => .ok (some f)

/-! ### Statement vocabulary -/

/-- Whether a single element passes the coercion of lines 44-58 (the outcome
is independent of the element's position, which only enters error
messages). -/
def elemOk (op : String) (item : PyVal) : Bool :=
  match coerceElem op 1 item with
  | .ok _ => true
  | .error _ => false

/-- Whether an element is an infinite-valued `float(...)` argument: a float
`±inf`, or a string that `float` parses to `±inf` (such as `"inf"`,
`"Infinity"`, `"1e400"`).  These are exactly the elements on which
`int(float(item))` raises `OverflowError`. -/
def infValued : PyVal → Bool
  | .float (.inf _) => true
  | .str s =>
    match pyFloatOfString s with
    | some (.inf _) => true
    | _ => false
  | _ => false

/-- The exact rational value of a finite double `m * 2 ^ e` (denotation used
only in theorem statements, never in the embedded code). -/
def finVal (m e : ℤ) : ℚ := (m : ℚ) * (2 : ℚ) ^ e

/-! ### Basic lemmas about errors and single-element coercion -/

theorem setPos_isValueError (e : PyErr) (p : ℕ) :
    (e.setPos p).isValueError = e.isValueError := by
  cases e <;> rfl

theorem setPos_isTypeError (e : PyErr) (p : ℕ) :
    (e.setPos p).isTypeError = e.isTypeError := by
  cases e <;> rfl

theorem coerceAttempt_setPos (op : String) (p q : ℕ) (item : PyVal) :
    coerceAttempt op p item =
      Except.mapError (fun e => e.setPos p) (coerceAttempt op q item) := by
  unfold coerceAttempt
  cases h : pyFloatOf item with
  | none => rfl
  | some f =>
    cases f with
    | finite m e =>
      by_cases hc : intEqFin (finTrunc m e) m e <;>
        simp [hc, Except.mapError, PyErr.setPos]
    | inf b => rfl
    | nan => rfl

theorem coerceElem_setPos (op : String) (p q : ℕ) (item : PyVal) :
    coerceElem op p item =
      Except.mapError (fun e => e.setPos p) (coerceElem op q item) := by
  unfold coerceElem
  by_cases h0 : item.isNoneB
  · simp [h0, Except.mapError, PyErr.setPos]
  · by_cases h1 : item.isinstInt
    · simp [h0, h1, Except.mapError]
    · by_cases h2 : item.isinstFloatOrStr
      · simp only [h0, h1, h2, Bool.false_eq_true, if_false, if_true]
        rw [coerceAttempt_setPos op p q item]
        cases ha : coerceAttempt op q item with
        | ok n => simp [Except.mapError]
        | error e =>
          simp only [Except.mapError, Except.map]
          rw [setPos_isValueError]
          by_cases hv : e.isValueError <;> simp [hv, Except.mapError, PyErr.setPos]
      · simp [h0, h1, h2, Except.mapError, PyErr.setPos]

theorem pyFloatOf_inf_infValued (item : PyVal) (b : Bool)
    (h : pyFloatOf item = some (.inf b)) : infValued item = true := by
  cases item <;> simp [pyFloatOf] at h <;> simp [infValued, h]

/-- The errors the `try` body of lines 50-54 can produce: the `float`-parse
`ValueError`, the NaN `ValueError`, the line 53 information-loss
`ValueError`, or the `OverflowError` on infinite-valued elements. -/
theorem coerceAttempt_error_cases (op : String) (p : ℕ) (item : PyVal) (e : PyErr)
    (h : coerceAttempt op p item = .error e) :
    e = .valueErrorFloatParse item ∨ e = .valueErrorIntOfNan ∨
    e = .valueErrorElemLossy op p item ∨
    (e = .overflowErrorIntOfInf ∧ infValued item = true) := by
  unfold coerceAttempt at h
  cases hf : pyFloatOf item with
  | none => rw [hf] at h; simp at h; tauto
  | some f =>
    rw [hf] at h
    cases f with
    | finite m e1 =>
      by_cases hc : intEqFin (finTrunc m e1) m e1
      · simp [hc] at h
      · simp [hc] at h
        tauto
    | inf b =>
      simp at h
      exact Or.inr (Or.inr (Or.inr ⟨h.symm, pyFloatOf_inf_infValued item b hf⟩))
    | nan => simp at h; tauto

/-- The four errors a single loop iteration can produce: the three
positional `ValueError`s of lines 46, 56 and 58 — all carrying the 1-based
position handed to the iteration — and the position-less `OverflowError`
that CPython's `int` raises on an infinite `float(item)`; the latter occurs
exactly on infinite-valued elements. -/
theorem coerceElem_error_cases (op : String) (p : ℕ) (item : PyVal) (e : PyErr)
    (h : coerceElem op p item = .error e) :
    e = .valueErrorElemNone op p ∨
    e = .valueErrorElemNotConvertible op p item ∨
    e = .valueErrorElemBadType op p item item.pyTypeName ∨
    (e = .overflowErrorIntOfInf ∧ infValued item = true) := by
  unfold coerceElem at h
  by_cases h0 : item.isNoneB
  · simp [h0] at h; tauto
  · by_cases h1 : item.isinstInt
    · simp [h0, h1] at h
    · by_cases h2 : item.isinstFloatOrStr
      · simp only [h0, h1, h2, Bool.false_eq_true, if_false, if_true] at h
        cases ha : coerceAttempt op p item with
        | ok n => rw [ha] at h; exact absurd h (by simp)
        | error e0 =>
          rw [ha] at h
          by_cases hv : e0.isValueError
          · simp [hv] at h; tauto
          · simp [hv] at h
            subst h
            rcases coerceAttempt_error_cases op p item e0 ha with h3 | h3 | h3 | h3 <;>
              [skip; skip; skip; exact Or.inr (Or.inr (Or.inr h3))] <;>
              subst h3 <;> simp [PyErr.isValueError] at hv
      · simp [h0, h1, h2] at h; tauto

theorem elemOk_spec (op : String) (p : ℕ) (item : PyVal) :
    (∃ n, coerceElem op p item = .ok n) ↔ elemOk op item = true := by
  rw [coerceElem_setPos op p 1 item]
  unfold elemOk
  cases coerceElem op 1 item with
  | ok n => simp [Except.mapError]
  | error e => simp [Except.mapError]

theorem elemOk_error (op : String) (p : ℕ) (item : PyVal)
    (h : elemOk op item = false) : ∃ e, coerceElem op p item = .error e := by
  cases he : coerceElem op p item with
  | ok n => exact absurd ((elemOk_spec op p item).mp ⟨n, he⟩) (by simp [h])
  | error e => exact ⟨e, rfl⟩

/-! ### Lemmas about the element loop -/

theorem coerceList_map_int (op : String) (ns : List ℤ) (idx : ℕ) :
    coerceList op (ns.map PyVal.int) idx = .ok ns := by
  induction ns generalizing idx with
  | nil => rfl
  | cons n rest ih => simp [coerceList, coerceElem, PyVal.isNoneB, PyVal.isinstInt,
      PyVal.intVal, ih (idx + 1)]

theorem coerceList_length (op : String) (l : List PyVal) (idx : ℕ) (out : List ℤ)
    (h : coerceList op l idx = .ok out) : out.length = l.length := by
  induction l generalizing idx out with
  | nil => simp [coerceList] at h; simp [← h]
  | cons x rest ih =>
    unfold coerceList at h
    cases hx : coerceElem op (idx + 1) x with
    | error e => rw [hx] at h; exact absurd h (by simp)
    | ok n =>
      rw [hx] at h
      cases hr : coerceList op rest (idx + 1) with
      | error e => rw [hr] at h; exact absurd h (by simp)
      | ok ns =>
        rw [hr] at h
        simp at h
        simp [← h, ih (idx + 1) ns hr]

theorem coerceList_all_ok (op : String) (l : List PyVal) (idx : ℕ) (out : List ℤ)
    (h : coerceList op l idx = .ok out) : ∀ y ∈ l, elemOk op y = true := by
  induction l generalizing idx out with
  | nil => simp
  | cons x rest ih =>
    unfold coerceList at h
    cases hx : coerceElem op (idx + 1) x with
    | error e => rw [hx] at h; exact absurd h (by simp)
    | ok n =>
      rw [hx] at h
      cases hr : coerceList op rest (idx + 1) with
      | error e => rw [hr] at h; exact absurd h (by simp)
      | ok ns =>
        intro y hy
        rcases List.mem_cons.mp hy with hy | hy
        · subst hy; exact (elemOk_spec op (idx + 1) y).mp ⟨n, hx⟩
        · exact ih (idx + 1) ns hr y hy

/-- Fail-fast: with every element before `x` valid, the loop on
`pre ++ x :: suf` fails with exactly the error `x` produces, carrying the
1-based position of `x`, and the elements after `x` are never examined. -/
theorem coerceList_firstBad (op : String) (pre : List PyVal) (x : PyVal)
    (suf : List PyVal) (idx : ℕ) (e : PyErr)
    (hpre : ∀ y ∈ pre, elemOk op y = true)
    (hx : coerceElem op (idx + pre.length + 1) x = .error e) :
    coerceList op (pre ++ x :: suf) idx = .error e := by
  induction pre generalizing idx with
  | nil =>
    simp only [List.nil_append, List.length_nil, Nat.add_zero] at hx ⊢
    unfold coerceList
    rw [hx]
  | cons y pre2 ih =>
    have hy : elemOk op y = true := hpre y (List.mem_cons_self y pre2)
    obtain ⟨n, hn⟩ := (elemOk_spec op (idx + 1) y).mpr hy
    simp only [List.cons_append]
    unfold coerceList
    rw [hn]
    have harith : idx + 1 + pre2.length + 1 = idx + (y :: pre2).length + 1 := by
      simp; omega
    rw [ih (idx + 1) (fun z hz => hpre z (List.mem_cons_of_mem y hz))
      (by rw [harith]; exact hx)]

/-- Every error of the loop originates in one iteration: the list splits
around an offending element whose predecessors are all valid. -/
theorem coerceList_error_src (op : String) (l : List PyVal) (idx : ℕ) (e : PyErr)
    (h : coerceList op l idx = .error e) :
    ∃ pre x suf, l = pre ++ x :: suf ∧ (∀ y ∈ pre, elemOk op y = true) ∧
      coerceElem op (idx + pre.length + 1) x = .error e := by
  induction l generalizing idx with
  | nil => simp [coerceList] at h
  | cons x rest ih =>
    unfold coerceList at h
    cases hx : coerceElem op (idx + 1) x with
    | error e0 =>
      rw [hx] at h
      simp at h
      subst h
      exact ⟨[], x, rest, by simp, by simp, by simpa using hx⟩
    | ok n =>
      rw [hx] at h
      cases hr : coerceList op rest (idx + 1) with
      | error e0 =>
        rw [hr] at h
        simp at h
        subst h
        obtain ⟨pre, x2, suf, hsplit, hpre, hx2⟩ := ih (idx + 1) hr
        refine ⟨x :: pre, x2, suf, by simp [hsplit], ?_, ?_⟩
        · intro y hy
          rcases List.mem_cons.mp hy with hy | hy
          · subst hy; exact (elemOk_spec op (idx + 1) y).mp ⟨n, hx⟩
          · exact hpre y hy
        · have : idx + 1 + pre.length + 1 = idx + (x :: pre).length + 1 := by
            simp; omega
          rw [← this]; exact hx2
      | ok ns => rw [hr] at h; exact absurd h (by simp)

/-- Element placement: when the loop succeeds on `pre ++ x :: suf`, the
output at index `pre.length` is exactly the coercion of `x`. -/
theorem coerceList_get (op : String) (pre : List PyVal) (x : PyVal)
    (suf : List PyVal) (idx : ℕ) (out : List ℤ)
    (h : coerceList op (pre ++ x :: suf) idx = .ok out) :
    ∃ n, coerceElem op (idx + pre.length + 1) x = .ok n ∧
      out.get? pre.length = some n := by
  induction pre generalizing idx out with
  | nil =>
    rw [List.nil_append] at h
    unfold coerceList at h
    cases hx : coerceElem op (idx + 1) x with
    | error e => rw [hx] at h; exact absurd h (by simp)
    | ok n =>
      rw [hx] at h
      cases hr : coerceList op suf (idx + 1) with
      | error e => rw [hr] at h; exact absurd h (by simp)
      | ok ns =>
        rw [hr] at h
        simp at h
        exact ⟨n, by simpa using hx, by simp [← h]⟩
  | cons y pre2 ih =>
    rw [List.cons_append] at h
    unfold coerceList at h
    cases hy : coerceElem op (idx + 1) y with
    | error e => rw [hy] at h; exact absurd h (by simp)
    | ok n =>
      rw [hy] at h
      cases hr : coerceList op (pre2 ++ x :: suf) (idx + 1) with
      | error e => rw [hr] at h; exact absurd h (by simp)
      | ok ns =>
        rw [hr] at h
        simp at h
        obtain ⟨n2, hn2, hget⟩ := ih (idx + 1) ns hr
        refine ⟨n2, ?_, ?_⟩
        · have : idx + 1 + pre2.length + 1 = idx + (y :: pre2).length + 1 := by
            simp; omega
          rw [← this]; exact hn2
        · simp only [← h, List.get?_eq_getElem?] at hget ⊢
          simpa using hget

/-! ### Lemmas about structure validation and the whole validator -/

theorem validate_input_list_nonlist (data : PyVal) (op : String)
    (h : data.isList = false) :
    validate_input_list data op = .error (.typeError op data.pyTypeName) := by
  unfold validate_input_list
  simp [h]

/-- On a list input, structure validation rejects only the empty-list/sum
combination and otherwise hands the element list through unchanged (the
`data is None` check of line 26 can never fire on a list, and the empty
`"média"` short-circuit returns the same empty list). -/
theorem validate_input_list_list (l : List PyVal) (op : String) :
    validate_input_list (.list l) op =
      if l.isEmpty && (op == "soma") then .error (.valueErrorEmpty op)
      else .ok l := by
  unfold validate_input_list
  simp only [PyVal.isList, PyVal.isNoneB, PyVal.toList, Bool.not_true,
    Bool.false_eq_true, if_false]
  by_cases hs : l.isEmpty && (op == "soma")
  · simp [hs]
  · simp only [hs, Bool.false_eq_true, if_false]
    by_cases hm : l.isEmpty && (op == "média")
    · rcases Bool.and_eq_true .. |>.mp hm with ⟨he, _⟩
      simp [hm, List.isEmpty_iff.mp he]
    · simp [hm]

theorem validate_input_list_ok (data : PyVal) (op : String) (v : List PyVal)
    (h : validate_input_list data op = .ok v) : data = .list v := by
  cases data with
  | list l =>
    rw [validate_input_list_list] at h
    by_cases hs : l.isEmpty && (op == "soma")
    · rw [if_pos hs] at h; exact absurd h (by simp)
    · rw [if_neg hs] at h; simp at h; rw [h]
  | int n => exact absurd h (by simp [validate_input_list_nonlist (PyVal.int n) op rfl])
  | float f => exact absurd h (by simp [validate_input_list_nonlist (PyVal.float f) op rfl])
  | str s => exact absurd h (by simp [validate_input_list_nonlist (PyVal.str s) op rfl])
  | none => exact absurd h (by simp [validate_input_list_nonlist (PyVal.none) op rfl])
  | bool b => exact absurd h (by simp [validate_input_list_nonlist (PyVal.bool b) op rfl])
  | dict => exact absurd h (by simp [validate_input_list_nonlist (PyVal.dict) op rfl])

/-- The only errors of structure validation: the `TypeError` on non-lists
and the empty-list `ValueError` for `"soma"`.  In particular the `None`
`ValueError` of line 27 is dead code: `None` is not a list, so line 25
always fires first. -/
theorem validate_input_list_error_cases (data : PyVal) (op : String) (e : PyErr)
    (h : validate_input_list data op = .error e) :
    (e = .typeError op data.pyTypeName ∧ data.isList = false) ∨
    (e = .valueErrorEmpty op ∧ data = .list [] ∧ op = "soma") := by
  cases hd : data.isList with
  | false =>
    rw [validate_input_list_nonlist data op hd] at h
    simp at h
    exact Or.inl ⟨h.symm, rfl⟩
  | true =>
    cases data with
    | list l =>
      rw [validate_input_list_list] at h
      by_cases hs : l.isEmpty && (op == "soma")
      · rw [if_pos hs] at h
        simp at h
        rcases Bool.and_eq_true .. |>.mp hs with ⟨he, ho⟩
        exact Or.inr ⟨h.symm, by rw [List.isEmpty_iff.mp he], by simpa using ho⟩
      · rw [if_neg hs] at h; exact absurd h (by simp)
    | int n => simp [PyVal.isList] at hd
    | float f => simp [PyVal.isList] at hd
    | str s => simp [PyVal.isList] at hd
    | none => simp [PyVal.isList] at hd
    | bool b => simp [PyVal.isList] at hd
    | dict => simp [PyVal.isList] at hd

theorem validate_integer_list_nonlist (data : PyVal) (op : String)
    (h : data.isList = false) :
    validate_integer_list data op = .error (.typeError op data.pyTypeName) := by
  unfold validate_integer_list
  rw [validate_input_list_nonlist data op h]

/-- On a list input the whole validator is: the empty/sum rejection, then
the element loop (the lines 40-41 short-circuit coincides with the loop on
an empty list). -/
theorem validate_integer_list_list (l : List PyVal) (op : String) :
    validate_integer_list (.list l) op =
      if l.isEmpty && (op == "soma") then .error (.valueErrorEmpty op)
      else coerceList op l 0 := by
  unfold validate_integer_list
  rw [validate_input_list_list]
  by_cases hs : l.isEmpty && (op == "soma")
  · simp [hs]
  · simp only [hs, Bool.false_eq_true, if_false]
    by_cases hm : l.isEmpty && (op == "média")
    · rcases Bool.and_eq_true .. |>.mp hm with ⟨he, _⟩
      rw [List.isEmpty_iff.mp he] at hm ⊢
      simp [hm, coerceList]
    · simp [hm]

/-- Error inversion for the whole validator: a `TypeError` on a non-list,
the empty-list `ValueError` for sum, or an element error from the loop. -/
theorem validate_integer_list_error_cases (data : PyVal) (op : String) (e : PyErr)
    (h : validate_integer_list data op = .error e) :
    (e = .typeError op data.pyTypeName ∧ data.isList = false) ∨
    (e = .valueErrorEmpty op ∧ data = .list [] ∧ op = "soma") ∨
    (∃ l pre x suf, data = .list (pre ++ x :: suf) ∧ l = pre ++ x :: suf ∧
      (∀ y ∈ pre, elemOk op y = true) ∧
      coerceElem op (pre.length + 1) x = .error e) := by
  cases hd : data.isList with
  | false =>
    rw [validate_integer_list_nonlist data op hd] at h
    simp at h
    exact Or.inl ⟨h.symm, rfl⟩
  | true =>
    cases data with
    | list l =>
      rw [validate_integer_list_list] at h
      by_cases hs : l.isEmpty && (op == "soma")
      · rw [if_pos hs] at h
        simp at h
        rcases Bool.and_eq_true .. |>.mp hs with ⟨he, ho⟩
        exact Or.inr (Or.inl ⟨h.symm, by rw [List.isEmpty_iff.mp he], by simpa using ho⟩)
      · rw [if_neg hs] at h
        obtain ⟨pre, x, suf, hsplit, hpre, hx⟩ := coerceList_error_src op l 0 e h
        exact Or.inr (Or.inr ⟨l, pre, x, suf, by rw [← hsplit], hsplit, hpre,
          by simpa using hx⟩)
    | int n => simp [PyVal.isList] at hd
    | float f => simp [PyVal.isList] at hd
    | str s => simp [PyVal.isList] at hd
    | none => simp [PyVal.isList] at hd
    | bool b => simp [PyVal.isList] at hd
    | dict => simp [PyVal.isList] at hd

/-- Success inversion: a successful validation comes from a list input whose
elements all coerce, and the output has the input's length. -/
theorem validate_integer_list_ok (data : PyVal) (op : String) (out : List ℤ)
    (h : validate_integer_list data op = .ok out) :
    ∃ l, data = .list l ∧ out.length = l.length ∧
      coerceList op l 0 = .ok out := by
  cases data with
  | list l =>
    rw [validate_integer_list_list] at h
    by_cases hs : l.isEmpty && (op == "soma")
    · rw [if_pos hs] at h; exact absurd h (by simp)
    · rw [if_neg hs] at h
      exact ⟨l, rfl, coerceList_length op l 0 out h, h⟩
  | int n => exact absurd h (by simp [validate_integer_list_nonlist (PyVal.int n) op rfl])
  | float f => exact absurd h (by simp [validate_integer_list_nonlist (PyVal.float f) op rfl])
  | str s => exact absurd h (by simp [validate_integer_list_nonlist (PyVal.str s) op rfl])
  | none => exact absurd h (by simp [validate_integer_list_nonlist (PyVal.none) op rfl])
  | bool b => exact absurd h (by simp [validate_integer_list_nonlist (PyVal.bool b) op rfl])
  | dict => exact absurd h (by simp [validate_integer_list_nonlist (PyVal.dict) op rfl])

/-- Validation of a list of genuine Python integers succeeds with exactly
those integers. -/
theorem validate_integer_list_ints (ns : List ℤ) (op : String)
    (h : ¬(ns = [] ∧ op = "soma")) :
    validate_integer_list (.list (ns.map PyVal.int)) op = .ok ns := by
  rw [validate_integer_list_list]
  have : ((ns.map PyVal.int).isEmpty && (op == "soma")) = false := by
    cases ns with
    | nil =>
      simp only [List.map_nil, List.isEmpty_nil, Bool.true_and]
      exact beq_eq_false_iff_ne.mpr fun ho => h ⟨rfl, ho⟩
    | cons a t => simp
  rw [this]
  simp [coerceList_map_int]

theorem sum_numbers_ints (ns : List ℤ) (h : ns ≠ []) :
    sum_numbers (.list (ns.map PyVal.int)) = .ok ns.sum := by
  unfold sum_numbers
  rw [validate_integer_list_ints ns "soma" (fun hc => h hc.1)]
  simp [List.isEmpty_iff, h]

theorem calculate_average_ints (ns : List ℤ) (h : ns ≠ []) :
    calculate_average (.list (ns.map PyVal.int)) =
      Except.map some (pyIntTrueDiv ns.sum ns.length) := by
  unfold calculate_average
  rw [validate_integer_list_ints ns "média"
    (fun hc => absurd hc.2 (by decide))]
  simp only [List.isEmpty_iff, h, if_neg]
  cases pyIntTrueDiv ns.sum ns.length with
  | error e => rfl
  | ok f => rfl

/-! ### The claims -/

/-- C3: the empty-input policy is operation-dependent.  `sum_numbers []`
fails with the `EmptyNotAllowed` `ValueError` ("the list must not be
empty"), while `calculate_average []` succeeds with the `None` sentinel
(`Option.none`, distinct from every computed float `some f`); and the
sentinel arises only on the literally empty list input. -/
theorem claim_C3 :
    sum_numbers (.list []) = .error (.valueErrorEmpty "soma") ∧
    (PyErr.valueErrorEmpty "soma").isValueError = true ∧
    calculate_average (.list []) = .ok Option.none ∧
    (∀ raw, calculate_average raw = .ok Option.none → raw = .list []) := by
  refine ⟨rfl, rfl, rfl, fun raw h => ?_⟩
  unfold calculate_average at h
  cases hv : validate_integer_list raw "média" with
  | error e => rw [hv] at h; exact absurd h (by simp)
  | ok out =>
    rw [hv] at h
    dsimp only at h
    by_cases ho : out.isEmpty = true
    · obtain ⟨l, hl, hlen, _⟩ := validate_integer_list_ok raw "média" out hv
      have h0 : out = [] := List.isEmpty_iff.mp ho
      have : l = [] := List.length_eq_zero.mp (by rw [← hlen, h0]; rfl)
      rw [hl, this]
    · rw [if_neg ho] at h
      cases hd : pyIntTrueDiv out.sum out.length with
      | error e => rw [hd] at h; exact absurd h (by simp)
      | ok f => rw [hd] at h; exact absurd h (by simp)

theorem claim_C3_witness :
    calculate_average (.list []) = .ok Option.none ∧ PyVal.list [] = PyVal.list [] :=
  ⟨rfl, claim_C3.2.2.2 (.list []) rfl⟩

/-- C4: on every non-empty list of genuine Python integers, `sum_numbers`
returns the exact arithmetic sum; the result is invariant under
permutation of the input; and `sum_numbers [1, 2, 3, 4] = 10`. -/
theorem claim_C4 :
    (∀ ns : List ℤ, ns ≠ [] →
      sum_numbers (.list (ns.map PyVal.int)) = .ok ns.sum) ∧
    (∀ ns ms : List ℤ, ns.Perm ms →
      sum_numbers (.list (ns.map PyVal.int)) =
        sum_numbers (.list (ms.map PyVal.int))) ∧
    sum_numbers (.list [.int 1, .int 2, .int 3, .int 4]) = .ok 10 := by
  refine ⟨sum_numbers_ints, fun ns ms hp => ?_, rfl⟩
  rcases eq_or_ne ns [] with he | he
  · subst he
    rw [List.Perm.eq_nil hp.symm]
  · have hm : ms ≠ [] := fun hh => he (List.Perm.eq_nil (hh ▸ hp))
    rw [sum_numbers_ints ns he, sum_numbers_ints ms hm, List.Perm.sum_eq hp]

theorem claim_C4_witness :
    sum_numbers (.list (([1, 2, 3, 4] : List ℤ).map PyVal.int)) = .ok 10 := by
  have h := claim_C4.1 [1, 2, 3, 4] (by decide)
  simpa using h

/-- C5 counterexample: the claimed universal floating-point result fails
for quotients beyond the binary64 range.  On `[2 ^ 1100]` CPython's
`sum / len` true division raises `OverflowError` ("integer division result
too large for a float") instead of returning a float — an exception the
`except (TypeError, ValueError)` of line 20 does not catch. -/
theorem claim_C5_counterexample :
    (13582985290493858492773514283592667786034938469317445497485196697278130927542418487205392083207560592298578262953847383475038725543234929971155548342800628721885763499406390331782864144164680730766837160526223176512798435772129956553355286032203080380775759732320198985094884004069116123084147875437183658467465148948790552744165376 : ℤ) = 2 ^ 1100 ∧
    calculate_average (.list [.int 13582985290493858492773514283592667786034938469317445497485196697278130927542418487205392083207560592298578262953847383475038725543234929971155548342800628721885763499406390331782864144164680730766837160526223176512798435772129956553355286032203080380775759732320198985094884004069116123084147875437183658467465148948790552744165376]) =
      .error .overflowErrorIntDiv ∧
    PyErr.isOverflowError .overflowErrorIntDiv = true ∧
    PyErr.isValueError .overflowErrorIntDiv = false ∧
    PyErr.isTypeError .overflowErrorIntDiv = false :=
  ⟨by norm_num, by rfl, rfl, rfl, rfl⟩

/-- C5 (amended): on every non-empty list of genuine Python integers,
`calculate_average` returns exactly the outcome of CPython's `int / int`
true division of the sum by the count: the correctly rounded binary64
quotient when that is finite, and the escaping division `OverflowError`
when the rounded quotient leaves the double range.  In particular
`[1,2,3,4]` averages to the double `5 * 2⁻¹ = 2.5` and `[0,0,0]` to `0.0`
— not the `None` sentinel. -/
theorem claim_C5 :
    (∀ ns : List ℤ, ns ≠ [] →
      calculate_average (.list (ns.map PyVal.int)) =
        Except.map some (pyIntTrueDiv ns.sum ns.length)) ∧
    (∀ ns : List ℤ, ns ≠ [] → ∀ m e, roundRat ns.sum ns.length = .finite m e →
      calculate_average (.list (ns.map PyVal.int)) = .ok (some (.finite m e))) ∧
    (∀ (num : ℤ) (den : ℕ) (b : Bool), roundRat num den = .inf b →
      pyIntTrueDiv num den = .error .overflowErrorIntDiv) ∧
    calculate_average (.list [.int 1, .int 2, .int 3, .int 4]) =
      .ok (some (.finite 5 (-1))) ∧
    finVal 5 (-1) = 5 / 2 ∧
    calculate_average (.list [.int 0, .int 0, .int 0]) =
      .ok (some (.finite 0 0)) ∧
    finVal 0 0 = 0 := by
  refine ⟨calculate_average_ints, fun ns h m e hr => ?_, fun num den b hr => ?_,
    rfl, ?_, rfl, ?_⟩
  · rw [calculate_average_ints ns h]
    unfold pyIntTrueDiv
    rw [hr]
    rfl
  · unfold pyIntTrueDiv
    rw [hr]
  · rw [finVal]
    norm_num
  · rw [finVal]
    norm_num

theorem claim_C5_witness :
    calculate_average (.list (([2] : List ℤ).map PyVal.int)) =
      Except.map some
        (pyIntTrueDiv ([(2 : ℤ)] : List ℤ).sum ([(2 : ℤ)] : List ℤ).length) ∧
    calculate_average (.list (([1, 2, 3, 4] : List ℤ).map PyVal.int)) =
      .ok (some (.finite 5 (-1))) :=
  ⟨claim_C5.1 [2] (by decide),
    claim_C5.2.1 [1, 2, 3, 4] (by decide) 5 (-1) (by rfl)⟩

/-- C6: a non-list input fails with the `TypeError` of line 25 naming the
actual runtime type; this `TypeMismatch` is the only failure kind of the
validator's taxonomy classified as a `TypeError`, and the `NullInput`,
`EmptyNotAllowed` and `ElementInvalid` kinds are all `ValueError`s. -/
theorem claim_C6 :
    (∀ raw op, raw.isList = false →
      validate_integer_list raw op = .error (.typeError op raw.pyTypeName)) ∧
    (∀ raw op e, validate_integer_list raw op = .error e → e.isTypeError = true →
      raw.isList = false ∧ e = .typeError op raw.pyTypeName) ∧
    (∀ op tn, (PyErr.typeError op tn).isTypeError = true) ∧
    (∀ op pos item tn,
      (PyErr.valueErrorNone op).isValueError = true ∧
      (PyErr.valueErrorEmpty op).isValueError = true ∧
      (PyErr.valueErrorElemNone op pos).isValueError = true ∧
      (PyErr.valueErrorElemLossy op pos item).isValueError = true ∧
      (PyErr.valueErrorElemNotConvertible op pos item).isValueError = true ∧
      (PyErr.valueErrorElemBadType op pos item tn).isValueError = true) := by
  refine ⟨validate_integer_list_nonlist, fun raw op e h ht => ?_,
    fun _ _ => rfl, fun _ _ _ _ => ⟨rfl, rfl, rfl, rfl, rfl, rfl⟩⟩
  rcases validate_integer_list_error_cases raw op e h with
    ⟨he, hl⟩ | ⟨he, _, _⟩ | ⟨l, pre, x, suf, _, _, _, hx⟩
  · exact ⟨hl, he⟩
  · subst he; simp [PyErr.isTypeError] at ht
  · rcases coerceElem_error_cases op (pre.length + 1) x e hx with
      h4 | h4 | h4 | ⟨h4, _⟩ <;> subst h4 <;> simp [PyErr.isTypeError] at ht

theorem claim_C6_witness :
    validate_integer_list (.str "x") "soma" = .error (.typeError "soma" "str") ∧
    ((PyVal.str "x").isList = false ∧
      PyErr.typeError "soma" "str" = .typeError "soma" (PyVal.str "x").pyTypeName) :=
  ⟨claim_C6.1 (.str "x") "soma" rfl,
    claim_C6.2.1 (.str "x") "soma" (.typeError "soma" "str") rfl rfl⟩

/-- C7 counterexample: on the `None` input the library raises the line 25
`TypeError` (naming `NoneType`), not the claimed `NullInput` `ValueError`:
`None` fails `isinstance(data, list)` before line 26 is ever reached. -/
theorem claim_C7_counterexample :
    sum_numbers PyVal.none = .error (.typeError "soma" "NoneType") ∧
    (PyErr.typeError "soma" "NoneType").isValueError = false ∧
    (PyErr.typeError "soma" "NoneType").isNullInput = false :=
  ⟨rfl, rfl, rfl⟩

/-- C7 (amended): a `None` input fails, for both operations, with the
`TypeMismatch` `TypeError` naming `NoneType`; the `NullInput` `ValueError`
of line 27 is dead code — no input whatsoever can produce it. -/
theorem claim_C7 :
    sum_numbers PyVal.none = .error (.typeError "soma" "NoneType") ∧
    calculate_average PyVal.none = .error (.typeError "média" "NoneType") ∧
    (∀ raw op e, validate_integer_list raw op = .error e →
      e.isNullInput = false) := by
  refine ⟨rfl, rfl, fun raw op e h => ?_⟩
  rcases validate_integer_list_error_cases raw op e h with
    ⟨he, _⟩ | ⟨he, _, _⟩ | ⟨l, pre, x, suf, _, _, _, hx⟩
  · subst he; rfl
  · subst he; rfl
  · rcases coerceElem_error_cases op (pre.length + 1) x e hx with
      h4 | h4 | h4 | ⟨h4, _⟩ <;> subst h4 <;> rfl

theorem claim_C7_witness :
    validate_integer_list (.list []) "soma" = .error (.valueErrorEmpty "soma") ∧
    (PyErr.valueErrorEmpty "soma").isNullInput = false :=
  ⟨rfl, claim_C7.2.2 (.list []) "soma" (.valueErrorEmpty "soma") rfl⟩

/-- C8 counterexample: booleans are not rejected.  `isinstance(True, int)`
holds in Python, so `[True, True, 3]` validates and sums to `5` instead of
failing with `ElementInvalid` at position 1. -/
theorem claim_C8_counterexample :
    sum_numbers (.list [.bool true, .bool true, .int 3]) = .ok 5 ∧
    elemOk "soma" (.bool true) = true :=
  ⟨rfl, rfl⟩

/-- C8 (amended): an element of a type other than `int`/`bool`, `float`,
`str` or `None` — e.g. a nested list or a dict — fails with the line 58
`ElementInvalid` error at its 1-based position naming the type found;
booleans, being `int` instances in Python, are instead accepted and
coerced to `1`/`0`. -/
theorem claim_C8 :
    (∀ op pos b, coerceElem op pos (.bool b) = .ok (if b then 1 else 0)) ∧
    (∀ op pos l, coerceElem op pos (.list l) =
      .error (.valueErrorElemBadType op pos (.list l) "list")) ∧
    (∀ op pos, coerceElem op pos PyVal.dict =
      .error (.valueErrorElemBadType op pos PyVal.dict "dict")) ∧
    (∀ op (pre : List PyVal) x suf, (∀ y ∈ pre, elemOk op y = true) →
      x.isNoneB = false → x.isinstInt = false → x.isinstFloatOrStr = false →
      coerceList op (pre ++ x :: suf) 0 =
        .error (.valueErrorElemBadType op (pre.length + 1) x x.pyTypeName)) := by
  refine ⟨fun op pos b => by cases b <;> rfl, fun op pos l => rfl, fun op pos => rfl,
    fun op pre x suf hpre h0 h1 h2 => ?_⟩
  have hx : coerceElem op (0 + pre.length + 1) x =
      .error (.valueErrorElemBadType op (0 + pre.length + 1) x x.pyTypeName) := by
    unfold coerceElem
    simp [h0, h1, h2]
  have h5 := coerceList_firstBad op pre x suf 0 _ hpre hx
  simpa using h5

theorem claim_C8_witness :
    coerceElem "soma" 1 (.bool true) = .ok 1 ∧
    coerceList "soma" ([.int 1] ++ PyVal.dict :: []) 0 =
      .error (.valueErrorElemBadType "soma" 2 PyVal.dict "dict") := by
  constructor
  · have h := claim_C8.1 "soma" 1 true
    simpa using h
  · have h := claim_C8.2.2.2 "soma" [.int 1] PyVal.dict []
      (by intro y hy; simp at hy; subst hy; rfl) rfl rfl rfl
    simpa using h

/-- C9 counterexample: an element on which `float` succeeds with an
infinity defeats positional reporting.  `["inf"]` has its (only, first)
element invalid, yet the escaping error is the `OverflowError` from
`int(float("inf"))`, which names no position at all. -/
theorem claim_C9_counterexample :
    elemOk "soma" (.str "inf") = false ∧
    sum_numbers (.list [.str "inf"]) = .error .overflowErrorIntOfInf ∧
    PyErr.position .overflowErrorIntOfInf = Option.none :=
  ⟨rfl, rfl, rfl⟩

/-- C9 (amended): validation is fail-fast — with every element before `x`
valid and `x` invalid, the outcome is the error produced by `x` itself, it
does not depend on the elements after `x`, and it names the 1-based
position of `x` whenever it is not the position-less `OverflowError` of an
infinite-valued element; `sum_numbers [1, 2, "2.5", 4]` fails with
`ElementInvalid` at position 3. -/
theorem claim_C9 :
    (∀ op (pre : List PyVal) x suf suf2, (∀ y ∈ pre, elemOk op y = true) →
      elemOk op x = false →
      validate_integer_list (.list (pre ++ x :: suf)) op =
        validate_integer_list (.list (pre ++ x :: suf2)) op ∧
      ∃ e, validate_integer_list (.list (pre ++ x :: suf)) op = .error e ∧
        coerceElem op (pre.length + 1) x = .error e ∧
        (e ≠ .overflowErrorIntOfInf → e.position = some (pre.length + 1))) ∧
    sum_numbers (.list [.int 1, .int 2, .str "2.5", .int 4]) =
      .error (.valueErrorElemNotConvertible "soma" 3 (.str "2.5")) := by
  refine ⟨fun op pre x suf suf2 hpre hx => ?_, rfl⟩
  obtain ⟨e, he⟩ := elemOk_error op (pre.length + 1) x hx
  have he0 : coerceElem op (0 + pre.length + 1) x = .error e := by simpa using he
  have h1 := coerceList_firstBad op pre x suf 0 e hpre he0
  have h2 := coerceList_firstBad op pre x suf2 0 e hpre he0
  have hne : ((pre ++ x :: suf).isEmpty && (op == "soma")) = false := by simp
  have hne2 : ((pre ++ x :: suf2).isEmpty && (op == "soma")) = false := by simp
  rw [validate_integer_list_list, validate_integer_list_list, hne, hne2]
  simp only [Bool.false_eq_true, if_false]
  refine ⟨by rw [h1, h2], e, by simpa using h1, he, fun hno => ?_⟩
  rcases coerceElem_error_cases op (pre.length + 1) x e he with
    h4 | h4 | h4 | ⟨h4, _⟩
  · subst h4; rfl
  · subst h4; rfl
  · subst h4; rfl
  · exact absurd h4 hno

theorem claim_C9_witness :
    validate_integer_list (.list [.int 1, .str "a", .int 9]) "soma" =
      validate_integer_list (.list [.int 1, .str "a"]) "soma" := by
  have h := (claim_C9.1 "soma" [.int 1] (.str "a") [.int 9] []
    (by intro y hy; simp at hy; subst hy; rfl) rfl).1
  simpa using h

/-- C10 counterexample: the validator can let a third exception class
escape.  On `["-inf"]`, `int(float("-inf"))` raises `OverflowError`, which
the `except ValueError` of line 55 does not catch — so the validator fails
with an error that is neither a `TypeError` nor a `ValueError`. -/
theorem claim_C10_counterexample :
    calculate_average (.list [.str "-inf"]) = .error .overflowErrorIntOfInf ∧
    PyErr.isValueError .overflowErrorIntOfInf = false ∧
    PyErr.isTypeError .overflowErrorIntOfInf = false ∧
    PyErr.isOverflowError .overflowErrorIntOfInf = true :=
  ⟨rfl, rfl, rfl, rfl⟩

/-- C10 (amended): every validator failure is a `TypeError`, a `ValueError`,
or the `OverflowError` from `int` on an infinity; the `OverflowError` case
arises exactly when the first invalid element is an infinite-valued float
or string (`"inf"`, `"-inf"`, `"1e400"`, ...).  Strings parsing to NaN stay
inside the claimed taxonomy: they produce the line 56 `ValueError`. -/
theorem claim_C10 :
    (∀ raw op e, validate_integer_list raw op = .error e →
      e.isTypeError = true ∨ e.isValueError = true ∨ e = .overflowErrorIntOfInf) ∧
    (∀ raw op, validate_integer_list raw op = .error .overflowErrorIntOfInf →
      ∃ pre x suf, raw = .list (pre ++ x :: suf) ∧ infValued x = true ∧
        (∀ y ∈ pre, elemOk op y = true)) ∧
    (∀ op pos, coerceElem op pos (.str "nan") =
      .error (.valueErrorElemNotConvertible op pos (.str "nan"))) := by
  refine ⟨fun raw op e h => ?_, fun raw op h => ?_, fun op pos => rfl⟩
  · rcases validate_integer_list_error_cases raw op e h with
      ⟨he, _⟩ | ⟨he, _, _⟩ | ⟨l, pre, x, suf, _, _, _, hx⟩
    · subst he; exact Or.inl rfl
    · subst he; exact Or.inr (Or.inl rfl)
    · rcases coerceElem_error_cases op (pre.length + 1) x e hx with
        h4 | h4 | h4 | ⟨h4, _⟩
      · subst h4; exact Or.inr (Or.inl rfl)
      · subst h4; exact Or.inr (Or.inl rfl)
      · subst h4; exact Or.inr (Or.inl rfl)
      · exact Or.inr (Or.inr h4)
  · rcases validate_integer_list_error_cases raw op _ h with
      ⟨he, _⟩ | ⟨he, _, _⟩ | ⟨l, pre, x, suf, hraw, _, hpre, hx⟩
    · exact absurd he (by simp)
    · exact absurd he (by simp)
    · refine ⟨pre, x, suf, hraw, ?_, hpre⟩
      rcases coerceElem_error_cases op (pre.length + 1) x _ hx with
        h4 | h4 | h4 | ⟨_, h4⟩
      · exact absurd h4 (by simp)
      · exact absurd h4 (by simp)
      · exact absurd h4 (by simp)
      · exact h4

theorem claim_C10_witness :
    ∃ pre x suf, PyVal.list [.str "inf"] = PyVal.list (pre ++ x :: suf) ∧
      infValued x = true ∧ (∀ y ∈ pre, elemOk "média" y = true) :=
  claim_C10.2.1 (.list [.str "inf"]) "média" rfl

/-- C1 (code bug): a float or string whose parsed float value has a
non-zero fractional part does fail with a positional `ValueError`, but its
surfaced detail is the line 56 "cannot be converted" message, never the
line 53 "conversion would lose information" message: the `raise` at line 53
sits inside the `try` of line 50, so the `except ValueError` of line 55
catches the library's own information-loss error and replaces it.  The
information-loss error can escape the validator on no input at all. -/
theorem claim_C1 :
    sum_numbers (.list [.float (.finite 7 (-1))]) =
      .error (.valueErrorElemNotConvertible "soma" 1 (.float (.finite 7 (-1)))) ∧
    (PyErr.valueErrorElemNotConvertible "soma" 1
      (.float (.finite 7 (-1)))).isValueError = true ∧
    (PyErr.valueErrorElemNotConvertible "soma" 1
      (.float (.finite 7 (-1)))).position = some 1 ∧
    (PyErr.valueErrorElemNotConvertible "soma" 1
      (.float (.finite 7 (-1)))).isLossy = false ∧
    (∀ raw op e, validate_integer_list raw op = .error e → e.isLossy = false) ∧
    (∀ op pos m e, intEqFin (finTrunc m e) m e = false →
      coerceElem op pos (.float (.finite m e)) =
        .error (.valueErrorElemNotConvertible op pos (.float (.finite m e)))) ∧
    (∀ op pos s m e, pyFloatOfString s = some (.finite m e) →
      intEqFin (finTrunc m e) m e = false →
      coerceElem op pos (.str s) =
        .error (.valueErrorElemNotConvertible op pos (.str s))) := by
  refine ⟨rfl, rfl, rfl, rfl, fun raw op e h => ?_,
    fun op pos m e h => ?_, fun op pos s m e hp h => ?_⟩
  · rcases validate_integer_list_error_cases raw op e h with
      ⟨he, _⟩ | ⟨he, _, _⟩ | ⟨l, pre, x, suf, _, _, _, hx⟩
    · subst he; rfl
    · subst he; rfl
    · rcases coerceElem_error_cases op (pre.length + 1) x e hx with
        h4 | h4 | h4 | ⟨h4, _⟩ <;> subst h4 <;> rfl
  · unfold coerceElem coerceAttempt
    simp [pyFloatOf, h, PyErr.isValueError, PyVal.isNoneB, PyVal.isinstInt,
      PyVal.isinstFloatOrStr]
  · unfold coerceElem coerceAttempt
    simp [pyFloatOf, hp, h, PyErr.isValueError, PyVal.isNoneB, PyVal.isinstInt,
      PyVal.isinstFloatOrStr]

theorem claim_C1_witness :
    coerceElem "média" 2 (.float (.finite 5 (-1))) =
      .error (.valueErrorElemNotConvertible "média" 2 (.float (.finite 5 (-1)))) ∧
    coerceElem "soma" 1 (.str "2.5") =
      .error (.valueErrorElemNotConvertible "soma" 1 (.str "2.5")) ∧
    (PyErr.valueErrorElemNotConvertible "soma" 3 (.str "2.5")).isLossy = false :=
  ⟨claim_C1.2.2.2.2.2.1 "média" 2 5 (-1) rfl,
    claim_C1.2.2.2.2.2.2 "soma" 1 "2.5" 5 (-1) (by rfl) (by rfl),
    claim_C1.2.2.2.2.1 (.list [.int 1, .int 2, .str "2.5", .int 4]) "soma"
      (.valueErrorElemNotConvertible "soma" 3 (.str "2.5")) rfl⟩

/-- C2 counterexample: coercion of an exactly-integer-valued numeric string
can yield a different integer than the one the string denotes.  CPython
parses `"10000000000000001"` (`10 ^ 16 + 1`, beyond the 53-bit double
precision) to the double `10 ^ 16`; the round-trip check then passes and
the validated sequence holds `10 ^ 16 ≠ 10 ^ 16 + 1`. -/
theorem claim_C2_counterexample :
    validate_integer_list (.list [.str "10000000000000001"]) "soma" =
      .ok [10000000000000000] ∧
    sum_numbers (.list [.str "10000000000000001"]) = .ok 10000000000000000 ∧
    (10000000000000000 : ℤ) ≠ (10000000000000001 : ℤ) :=
  ⟨rfl, rfl, by decide⟩

/-- C2 (amended): a float element of exact integer value is accepted as
that integer, and a string element whose `float(...)` parse is a finite
double of exact integer value is accepted as the integer of the parsed
double — which, for strings beyond 53-bit precision, may differ from the
decimal integer the string denotes.  The accepted integer is the element
placed at the same position in the validated sequence. -/
theorem claim_C2 :
    (∀ op pos m e, intEqFin (finTrunc m e) m e = true →
      coerceElem op pos (.float (.finite m e)) = .ok (finTrunc m e)) ∧
    (∀ op pos s m e, pyFloatOfString s = some (.finite m e) →
      intEqFin (finTrunc m e) m e = true →
      coerceElem op pos (.str s) = .ok (finTrunc m e)) ∧
    (∀ op (pre : List PyVal) s m e suf out,
      pyFloatOfString s = some (.finite m e) →
      intEqFin (finTrunc m e) m e = true →
      validate_integer_list (.list (pre ++ .str s :: suf)) op = .ok out →
      out.get? pre.length = some (finTrunc m e)) := by
  refine ⟨fun op pos m e h => ?_, fun op pos s m e hp h => ?_,
    fun op pre s m e suf out hp h hv => ?_⟩
  · unfold coerceElem coerceAttempt
    simp [pyFloatOf, h, PyVal.isNoneB, PyVal.isinstInt, PyVal.isinstFloatOrStr]
  · unfold coerceElem coerceAttempt
    simp [pyFloatOf, hp, h, PyVal.isNoneB, PyVal.isinstInt, PyVal.isinstFloatOrStr]
  · obtain ⟨l, hl, hlen, hc⟩ := validate_integer_list_ok _ op out hv
    have hll : pre ++ .str s :: suf = l := by
      cases hl with
      | refl => rfl
    subst hll
    obtain ⟨n, hn, hget⟩ := coerceList_get op pre (.str s) suf 0 out hc
    have h2 : coerceElem op (0 + pre.length + 1) (.str s) = .ok (finTrunc m e) := by
      unfold coerceElem coerceAttempt
      simp [pyFloatOf, hp, h, PyVal.isNoneB, PyVal.isinstInt, PyVal.isinstFloatOrStr]
    rw [hn] at h2
    have : n = finTrunc m e := by
      injection h2 with h3
    rw [hget, this]

theorem claim_C2_witness :
    coerceElem "soma" 1 (.float (.finite 3 0)) = .ok (finTrunc 3 0) ∧
    coerceElem "soma" 1 (.str "5.0") = .ok (finTrunc 5 0) ∧
    finTrunc 5 0 = 5 :=
  ⟨claim_C2.1 "soma" 1 3 0 (by rfl), claim_C2.2.1 "soma" 1 "5.0" 5 0 (by rfl) (by rfl),
    rfl⟩

end CalcNumbers
